import Mathlib

/-!
Verification of the featurestore repository: a shallow embedding of
`src/feature_engineering.py` and `src/feature_store_ops.py`, together with
theorems settling the specification claims about them.

Modelling conventions:
* a Python raw-data dictionary with four optional keys becomes a structure
  of four `Option (List _)` fields (a missing key is `none`);
* Python dictionaries keyed by `user_id` whose values are read back with
  `.get(key, default)` are modelled as total functions with that default
  (an absent key and a key holding the default are observationally equal
  through `engineer_user_activity_features`, the only reader);
* Python `zip` truncates at the shortest sequence, as does `List.zip`;
* a raised `ValueError` becomes `Except.error` with the message text;
* a pandas DataFrame row / Python dict with string keys and integer values
  becomes an association list `List (String × Int)` in insertion order,
  with dict assignment updating in place or appending (`dictSet`).
-/

namespace FeatureStore

/-- Raw activity batch: the argument of `engineer_user_activity_features`
(`raw_data : Dict[str, List]`), with one field per required key; `none`
models a missing key. -/
structure RawData where
  user_id : Option (List Int)
  activity_type : Option (List String)
  timestamp : Option (List Int)
  product_id : Option (List String)
deriving Repr, DecidableEq

/-- Builds the well-keyed batch with all four sequences present. -/
def mkBatch (uids : List Int) (atys : List String) (tss : List Int)
    (pids : List String) : RawData :=
  ⟨some uids, some atys, some tss, some pids⟩

/-- Embeds `calculate_total_activities`: folds over `raw_data[user_id]`,
incrementing a per-user counter dictionary
(`activity_counts[user_id] = activity_counts.get(user_id, 0) + 1`).
The dictionary is modelled as a total function with default 0. -/
def calculate_total_activities (user_ids : List Int) : Int → Nat :=
  user_ids.foldl
    (fun activity_counts uid =>
      Function.update activity_counts uid (activity_counts uid + 1))
    (fun _ => 0)

/-- Embeds the loop of `calculate_unique_products_viewed`: zips
`user_id`, `activity_type`, `product_id` and, for each record whose
activity type is `view`, adds the product id to that user's set
(`user_products[user_id].add(product_id)`); absent keys are the empty set. -/
def viewedProductSets (records : List (Int × String × String)) :
    Int → Finset String :=
  records.foldl
    (fun user_products r =>
      if r.2.1 = "view" then
        Function.update user_products r.1 (insert r.2.2 (user_products r.1))
      else user_products)
    (fun _ => (∅ : Finset String))

/-- Embeds `calculate_unique_products_viewed`: the returned dictionary
`{user_id: len(products)}`, read back with `.get(uid, 0)`, as a total
function (an absent user and an empty set both give 0). -/
def calculate_unique_products_viewed (user_ids : List Int)
    (activity_types product_ids : List String) : Int → Nat :=
  fun uid =>
    (viewedProductSets (user_ids.zip (activity_types.zip product_ids)) uid).card

/-- Embeds `calculate_purchase_count`: zips `user_id` with `activity_type`
and counts the records labelled `purchase` per user
(`purchase_counts[user_id] = purchase_counts.get(user_id, 0) + 1`). -/
def calculate_purchase_count (user_ids : List Int)
    (activity_types : List String) : Int → Nat :=
  (user_ids.zip activity_types).foldl
    (fun purchase_counts r =>
      if r.2 = "purchase" then
        Function.update purchase_counts r.1 (purchase_counts r.1 + 1)
      else purchase_counts)
    (fun _ => 0)

/-- One output row of `engineer_user_activity_features` (one row of the
returned DataFrame, whose columns are the four listed fields). -/
structure FeatureRow where
  user_id : Int
  total_activities : Nat
  unique_products_viewed : Nat
  purchase_count : Nat
deriving Repr, DecidableEq

/-- Column names of the output DataFrame built by
`engineer_user_activity_features` (the keys of its `features` dict). -/
def featureRowFieldNames : List String :=
  ["user_id", "total_activities", "unique_products_viewed", "purchase_count"]

/-- Embeds `engineer_user_activity_features`: validates that the four
required keys are present and that the four sequences have equal length
(`len(set(lengths)) > 1` raises), then computes the three aggregates and
emits one row per distinct user id, in ascending order
(`sorted(set(raw_data[user_id]))`), defaulting each count to 0 via
`.get(uid, 0)`. -/
def engineer_user_activity_features (raw_data : RawData) :
    Except String (List FeatureRow) :=
  match raw_data.user_id with
  | none => .error "Missing required key: user_id"
  | some uids =>
    match raw_data.activity_type with
    | none => .error "Missing required key: activity_type"
    | some atys =>
      match raw_data.timestamp with
      | none => .error "Missing required key: timestamp"
      | some tss =>
        match raw_data.product_id with
        | none => .error "Missing required key: product_id"
        | some pids =>
          if atys.length = uids.length ∧ tss.length = uids.length ∧
              pids.length = uids.length then
            let total_activities := calculate_total_activities uids
            let unique_products :=
              calculate_unique_products_viewed uids atys pids
            let purchase_counts := calculate_purchase_count uids atys
            let unique_users := List.insertionSort (· ≤ ·) uids.dedup
            .ok (unique_users.map (fun uid =>
              { user_id := uid
                total_activities := total_activities uid
                unique_products_viewed := unique_products uid
                purchase_count := purchase_counts uid }))
          else .error "All data arrays must have the same length"

/-- One feature entry of the feature-view metadata (`{name, dtype}`). -/
structure FeatureField where
  name : String
  dtype : String
deriving Repr, DecidableEq

/-- The feature-view metadata record returned by `define_feature_view`
(`ttl = timedelta(days=1)` is kept as its day count). -/
structure FeatureView where
  name : String
  entities : List String
  features : List FeatureField
  ttl_days : Nat
  source : String
  description : String
deriving Repr, DecidableEq

/-- Embeds `define_feature_view`: the static metadata dictionary it
returns. -/
def define_feature_view : FeatureView :=
  { name := "user_activity_features"
    entities := ["user_id"]
    features :=
      [{ name := "total_activities", dtype := "int64" },
       { name := "unique_products_viewed", dtype := "int64" },
       { name := "purchase_count", dtype := "int64" }]
    ttl_days := 1
    source := "push_source"
    description := "User activity aggregated features for ML models" }

/-- Looks a key up in an association-list dictionary (first match, as in a
Python dict or a DataFrame column access). -/
def dictGet? : List (String × Int) → String → Option Int
  | [], _ => none
  | p :: rest, k => if p.1 = k then some p.2 else dictGet? rest k

/-- Dict assignment `d[k] = v`: overwrites an existing key in place,
otherwise appends in insertion order (Python dict / new DataFrame column). -/
def dictSet : List (String × Int) → String → Int → List (String × Int)
  | [], k, v => [(k, v)]
  | p :: rest, k, v =>
    if p.1 = k then (k, v) :: rest else p :: dictSet rest k v

/-- One entity row handed to the retrieval simulations: the entity key
column `user_id` (which both functions read) plus any other columns the
caller supplied (for example `event_timestamp`). -/
structure EntityRow where
  user_id : Int
  extra : List (String × Int)
deriving Repr, DecidableEq

/-- Default feature list used by both retrieval simulations when the
caller passes `features=None`. -/
def defaultFeatureList : List String :=
  ["total_activities", "unique_products_viewed", "purchase_count"]

/-- Embeds the loop body of `simulate_historical_features`:
`result_df[feature] = result_df[user_id] * k` for the three known names,
restricted to one row; an unknown name is skipped. -/
def historical_set_feature (user_id : Int) (r : List (String × Int))
    (feature : String) : List (String × Int) :=
  if feature = "total_activities" then dictSet r feature (user_id * 10)
  else if feature = "unique_products_viewed" then
    dictSet r feature (user_id * 5)
  else if feature = "purchase_count" then dictSet r feature (user_id * 2)
  else r

/-- Embeds `simulate_historical_features`: copies the entity DataFrame and
adds one simulated feature column per requested name. A DataFrame column
assignment is modelled row by row (each row gets the value computed from
its own `user_id`). -/
def simulate_historical_features (entity_df : List EntityRow)
    (features : Option (List String)) : List (List (String × Int)) :=
  let feats := features.getD defaultFeatureList
  entity_df.map (fun row =>
    feats.foldl (historical_set_feature row.user_id)
      (("user_id", row.user_id) :: row.extra))

/-- Embeds the inner loop of `simulate_online_features`:
`feature_dict[feature] = user_id * k` for the three known names; an
unknown name is skipped. -/
def online_set_feature (user_id : Int) (feature_dict : List (String × Int))
    (feature : String) : List (String × Int) :=
  if feature = "total_activities" then
    dictSet feature_dict feature (user_id * 10)
  else if feature = "unique_products_viewed" then
    dictSet feature_dict feature (user_id * 5)
  else if feature = "purchase_count" then
    dictSet feature_dict feature (user_id * 2)
  else feature_dict

/-- Embeds `simulate_online_features`: for each entity row builds a fresh
dict `{user_id: ...}` and adds one simulated feature value per requested
name. -/
def simulate_online_features (entity_rows : List EntityRow)
    (features : Option (List String)) : List (List (String × Int)) :=
  let feats := features.getD defaultFeatureList
  entity_rows.map (fun entity_row =>
    let user_id := entity_row.user_id
    feats.foldl (online_set_feature user_id) [("user_id", user_id)])

/-- Modelled from the spec: the fixed linear formulas the retrieval
simulations use for the three known feature names (`total_activities` is
`10 * user_id`, `unique_products_viewed` is `5 * user_id`,
`purchase_count` is `2 * user_id`); stated independently of the two
embedded functions so their agreement with it can be proved. -/
def claimed_feature_formula (user_id : Int) (feature : String) : Int :=
  if feature = "total_activities" then user_id * 10
  else if feature = "unique_products_viewed" then user_id * 5
  else user_id * 2

/-- Spec-language description of `unique_products_viewed`: the set of
distinct `product_id` values among the zipped records carrying the given
user id and activity type `view`. -/
def distinctViewedProducts (records : List (Int × String × String))
    (u : Int) : Finset String :=
  ((records.filter (fun r => decide (r.1 = u ∧ r.2.1 = "view"))).map
    (fun r => r.2.2)).toFinset

/-- Two activity labels agree whenever either of them is `view` or
`purchase`; only irrelevant labels may differ. -/
def RelabelOk (a b : String) : Prop :=
  (a = "view" ∨ a = "purchase" ∨ b = "view" ∨ b = "purchase") → a = b

/-- Spec-language description of a well-formed batch: all four required
sequences present and of one common length. -/
def wellFormedBatch (raw : RawData) : Prop :=
  ∃ uids atys tss pids,
    raw = ⟨some uids, some atys, some tss, some pids⟩ ∧
    atys.length = uids.length ∧ tss.length = uids.length ∧
    pids.length = uids.length

/-! Characterisations of the three aggregates in closed form. -/

lemma total_activities_foldl (l : List Int) (acc : Int → Nat) (u : Int) :
    (l.foldl
      (fun activity_counts uid =>
        Function.update activity_counts uid (activity_counts uid + 1)) acc) u
      = acc u + l.count u := by
  induction l generalizing acc with
  | nil => simp
  | cons a t ih =>
    simp only [List.foldl_cons, ih, List.count_cons]
    by_cases h : u = a
    · subst h; simp [Function.update_apply]; omega
    · simp [Function.update_apply, h, Ne.symm h]

lemma calculate_total_activities_eq (uids : List Int) (u : Int) :
    calculate_total_activities uids u = uids.count u := by
  simp [calculate_total_activities, total_activities_foldl]

lemma purchase_count_foldl (l : List (Int × String)) (acc : Int → Nat)
    (u : Int) :
    (l.foldl
      (fun purchase_counts r =>
        if r.2 = "purchase" then
          Function.update purchase_counts r.1 (purchase_counts r.1 + 1)
        else purchase_counts) acc) u
      = acc u + l.countP (fun r => decide (r.1 = u ∧ r.2 = "purchase")) := by
  induction l generalizing acc with
  | nil => simp
  | cons a t ih =>
    simp only [List.foldl_cons, ih, List.countP_cons]
    by_cases hp : a.2 = "purchase"
    · by_cases hu : a.1 = u
      · simp [hp, hu, Function.update_apply]; omega
      · have hu' : ¬u = a.1 := fun h => hu h.symm
        simp [hp, hu, hu', Function.update_apply]
    · simp [hp]

lemma calculate_purchase_count_eq (uids : List Int) (atys : List String)
    (u : Int) :
    calculate_purchase_count uids atys u
      = (uids.zip atys).countP (fun r => decide (r.1 = u ∧ r.2 = "purchase")) := by
  simp [calculate_purchase_count, purchase_count_foldl]

lemma viewed_products_foldl (l : List (Int × String × String))
    (acc : Int → Finset String) (u : Int) :
    (l.foldl
      (fun user_products r =>
        if r.2.1 = "view" then
          Function.update user_products r.1
            (insert r.2.2 (user_products r.1))
        else user_products) acc) u
      = acc u ∪ distinctViewedProducts l u := by
  induction l generalizing acc with
  | nil => simp [distinctViewedProducts]
  | cons a t ih =>
    simp only [List.foldl_cons, ih, distinctViewedProducts, List.filter_cons]
    by_cases hv : a.2.1 = "view"
    · by_cases hu : a.1 = u
      · simp [hv, hu, Function.update_apply, distinctViewedProducts,
          Finset.union_insert]
      · have hu' : ¬u = a.1 := fun h => hu h.symm
        simp [hv, hu, hu', Function.update_apply, distinctViewedProducts]
    · simp [hv, distinctViewedProducts]

lemma viewedProductSets_eq (l : List (Int × String × String)) (u : Int) :
    viewedProductSets l u = distinctViewedProducts l u := by
  simp [viewedProductSets, viewed_products_foldl]

lemma calculate_unique_products_viewed_eq (uids : List Int)
    (atys pids : List String) (u : Int) :
    calculate_unique_products_viewed uids atys pids u
      = (distinctViewedProducts (uids.zip (atys.zip pids)) u).card := by
  simp [calculate_unique_products_viewed, viewedProductSets_eq]

/-- Unfolds `engineer_user_activity_features` on a well-keyed batch with
consistent lengths. -/
lemma engineer_ok (uids : List Int) (atys : List String) (tss : List Int)
    (pids : List String)
    (h : atys.length = uids.length ∧ tss.length = uids.length ∧
      pids.length = uids.length) :
    engineer_user_activity_features (mkBatch uids atys tss pids)
      = .ok ((List.insertionSort (· ≤ ·) uids.dedup).map (fun uid =>
          { user_id := uid
            total_activities := calculate_total_activities uids uid
            unique_products_viewed :=
              calculate_unique_products_viewed uids atys pids uid
            purchase_count := calculate_purchase_count uids atys uid })) := by
  simp [engineer_user_activity_features, mkBatch, h.1, h.2.1, h.2.2]

/-! Properties of the sorted distinct-user list `sorted(set(...))`. -/

lemma mem_uniqueUsers (uids : List Int) (u : Int) :
    u ∈ List.insertionSort (· ≤ ·) uids.dedup ↔ u ∈ uids := by
  rw [(List.perm_insertionSort _ _).mem_iff, List.mem_dedup]

lemma nodup_uniqueUsers (uids : List Int) :
    (List.insertionSort (· ≤ ·) uids.dedup).Nodup :=
  ((List.perm_insertionSort (· ≤ ·) uids.dedup).symm).nodup
    (List.nodup_dedup uids)

lemma sorted_lt_uniqueUsers (uids : List Int) :
    List.Sorted (· < ·) (List.insertionSort (· ≤ ·) uids.dedup) := by
  have hs : List.Sorted (· ≤ ·) (List.insertionSort (· ≤ ·) uids.dedup) :=
    List.sorted_insertionSort _ _
  have hn : (List.insertionSort (· ≤ ·) uids.dedup).Pairwise (· ≠ ·) :=
    nodup_uniqueUsers uids
  exact (hs.and hn).imp (fun h => lt_of_le_of_ne h.1 h.2)

/-! Association-list dictionary lemmas. -/

lemma dictGet?_dictSet_self (d : List (String × Int)) (k : String) (v : Int) :
    dictGet? (dictSet d k v) k = some v := by
  induction d with
  | nil => simp [dictSet, dictGet?]
  | cons p rest ih =>
    by_cases h : p.1 = k
    · simp [dictSet, dictGet?, h]
    · simp [dictSet, dictGet?, h, ih]

lemma dictGet?_dictSet_ne (d : List (String × Int)) (k k' : String)
    (v : Int) (h : k' ≠ k) :
    dictGet? (dictSet d k v) k' = dictGet? d k' := by
  have hk : ¬k = k' := fun hh => h hh.symm
  induction d with
  | nil => simp [dictSet, dictGet?, hk]
  | cons p rest ih =>
    by_cases hp : p.1 = k
    · have : ¬k = k' := fun hh => h hh.symm
      simp [dictSet, dictGet?, hp, this]
    · simp [dictSet, dictGet?, hp, ih]

/-! Behaviour of the per-feature assignment loops of the two retrieval
simulations. -/

lemma historical_set_feature_ne (uid : Int) (d : List (String × Int))
    (g f : String) (h : f ≠ g) :
    dictGet? (historical_set_feature uid d g) f = dictGet? d f := by
  unfold historical_set_feature
  split_ifs <;> simp [dictGet?_dictSet_ne _ _ _ _ h]

lemma online_set_feature_ne (uid : Int) (d : List (String × Int))
    (g f : String) (h : f ≠ g) :
    dictGet? (online_set_feature uid d g) f = dictGet? d f := by
  unfold online_set_feature
  split_ifs <;> simp [dictGet?_dictSet_ne _ _ _ _ h]

lemma historical_foldl_not_mem (uid : Int) (feats : List String)
    (d : List (String × Int)) (f : String) (hf : f ∉ feats) :
    dictGet? (feats.foldl (historical_set_feature uid) d) f
      = dictGet? d f := by
  induction feats generalizing d with
  | nil => simp
  | cons g gs ih =>
    simp only [List.mem_cons, not_or] at hf
    simp only [List.foldl_cons, ih _ hf.2,
      historical_set_feature_ne _ _ _ _ hf.1]

lemma online_foldl_not_mem (uid : Int) (feats : List String)
    (d : List (String × Int)) (f : String) (hf : f ∉ feats) :
    dictGet? (feats.foldl (online_set_feature uid) d) f = dictGet? d f := by
  induction feats generalizing d with
  | nil => simp
  | cons g gs ih =>
    simp only [List.mem_cons, not_or] at hf
    simp only [List.foldl_cons, ih _ hf.2,
      online_set_feature_ne _ _ _ _ hf.1]

lemma historical_foldl_get (uid : Int) (feats : List String)
    (d : List (String × Int)) (f : String) (hf : f ∈ defaultFeatureList) :
    dictGet? (feats.foldl (historical_set_feature uid) d) f
      = if f ∈ feats then some (claimed_feature_formula uid f)
        else dictGet? d f := by
  induction feats generalizing d with
  | nil => simp
  | cons g gs ih =>
    simp only [List.foldl_cons]
    by_cases hfg : f = g
    · subst hfg
      rw [ih]
      by_cases hmem : f ∈ gs
      · simp [hmem]
      · simp only [hmem, if_false, List.mem_cons, true_or, if_true]
        simp only [defaultFeatureList, List.mem_cons, List.not_mem_nil,
          or_false] at hf
        rcases hf with hf | hf | hf <;>
          simp [hf, historical_set_feature, claimed_feature_formula,
            dictGet?_dictSet_self]
    · rw [ih, historical_set_feature_ne _ _ _ _ hfg]
      simp [List.mem_cons, hfg]

lemma online_foldl_get (uid : Int) (feats : List String)
    (d : List (String × Int)) (f : String) (hf : f ∈ defaultFeatureList) :
    dictGet? (feats.foldl (online_set_feature uid) d) f
      = if f ∈ feats then some (claimed_feature_formula uid f)
        else dictGet? d f := by
  induction feats generalizing d with
  | nil => simp
  | cons g gs ih =>
    simp only [List.foldl_cons]
    by_cases hfg : f = g
    · subst hfg
      rw [ih]
      by_cases hmem : f ∈ gs
      · simp [hmem]
      · simp only [hmem, if_false, List.mem_cons, true_or, if_true]
        simp only [defaultFeatureList, List.mem_cons, List.not_mem_nil,
          or_false] at hf
        rcases hf with hf | hf | hf <;>
          simp [hf, online_set_feature, claimed_feature_formula,
            dictGet?_dictSet_self]
    · rw [ih, online_set_feature_ne _ _ _ _ hfg]
      simp [List.mem_cons, hfg]

/-! Relabelling of activity types away from `view` and `purchase`. -/

lemma RelabelOk.purchase_iff {a b : String} (h : RelabelOk a b) :
    a = "purchase" ↔ b = "purchase" := by
  constructor
  · intro ha; rw [← h (Or.inr (Or.inl ha))]; exact ha
  · intro hb; rw [h (Or.inr (Or.inr (Or.inr hb)))]; exact hb

lemma RelabelOk.view_iff {a b : String} (h : RelabelOk a b) :
    a = "view" ↔ b = "view" := by
  constructor
  · intro ha; rw [← h (Or.inl ha)]; exact ha
  · intro hb; rw [h (Or.inr (Or.inr (Or.inl hb)))]; exact hb

lemma relabel_purchase_countP (uids : List Int) {atys atys' : List String}
    (h : List.Forall₂ RelabelOk atys atys') (u : Int) :
    (uids.zip atys).countP (fun r => decide (r.1 = u ∧ r.2 = "purchase"))
      = (uids.zip atys').countP
          (fun r => decide (r.1 = u ∧ r.2 = "purchase")) := by
  induction h generalizing uids with
  | nil => rfl
  | @cons a b l1 l2 hab hrest ih =>
    cases uids with
    | nil => rfl
    | cons x xs =>
      simp only [List.zip_cons_cons, List.countP_cons, ih xs]
      have hd : decide (x = u ∧ a = "purchase")
          = decide (x = u ∧ b = "purchase") :=
        decide_eq_decide.mpr
          (and_congr_right (fun _ => hab.purchase_iff))
      rw [hd]

lemma relabel_view_filter (uids : List Int) (pids : List String)
    {atys atys' : List String} (h : List.Forall₂ RelabelOk atys atys')
    (u : Int) :
    (uids.zip (atys.zip pids)).filter
        (fun r => decide (r.1 = u ∧ r.2.1 = "view"))
      = (uids.zip (atys'.zip pids)).filter
          (fun r => decide (r.1 = u ∧ r.2.1 = "view")) := by
  induction h generalizing uids pids with
  | nil => rfl
  | @cons a b l1 l2 hab hrest ih =>
    cases uids with
    | nil => rfl
    | cons x xs =>
      cases pids with
      | nil => rfl
      | cons c cs =>
        simp only [List.zip_cons_cons, List.filter_cons]
        by_cases hv : a = "view"
        · have heq2 : a = b := hab (Or.inl hv)
          rw [heq2, ih xs cs]
        · have hb : ¬b = "view" := fun hh => hv (hab.view_iff.mpr hh)
          have hca : ¬(decide ((x, (a, c)).1 = u ∧ (x, (a, c)).2.1 = "view")
              = true) := by simp [hv]
          have hcb : ¬(decide ((x, (b, c)).1 = u ∧ (x, (b, c)).2.1 = "view")
              = true) := by simp [hb]
          rw [if_neg hca, if_neg hcb, ih xs cs]

/-! Per-user count inequality: distinct viewed products plus purchases
never exceed the user's total records. -/

lemma viewed_card_add_purchase_le (uids : List Int) (atys pids : List String)
    (u : Int) (h1 : atys.length = uids.length)
    (h2 : pids.length = uids.length) :
    (distinctViewedProducts (uids.zip (atys.zip pids)) u).card
      + (uids.zip atys).countP (fun r => decide (r.1 = u ∧ r.2 = "purchase"))
      ≤ uids.count u := by
  induction uids generalizing atys pids with
  | nil => simp [distinctViewedProducts]
  | cons x xs ih =>
    cases atys with
    | nil => simp at h1
    | cons a as =>
      cases pids with
      | nil => simp at h2
      | cons c cs =>
        simp only [List.length_cons, Nat.add_right_cancel_iff] at h1 h2
        have hrec := ih as cs h1 h2
        simp only [distinctViewedProducts] at hrec ⊢
        simp only [List.zip_cons_cons, List.filter_cons, List.countP_cons,
          List.count_cons]
        by_cases hx : x = u
        · by_cases hv : a = "view"
          · have hp : ¬a = "purchase" := by subst hv; decide
            have hc1 : decide ((x, (a, c)).1 = u ∧ (x, (a, c)).2.1 = "view")
                = true := by simp [hx, hv]
            have hc2 : ¬(decide ((x, a).1 = u ∧ (x, a).2 = "purchase")
                = true) := by simp [hp]
            have hc3 : (x == u) = true := by simp [hx]
            rw [if_pos hc1, if_neg hc2, if_pos hc3]
            simp only [List.map_cons, List.toFinset_cons]
            have hcard := Finset.card_insert_le c
              ((List.map (fun r => r.2.2)
                ((xs.zip (as.zip cs)).filter
                  (fun r => decide (r.1 = u ∧ r.2.1 = "view")))).toFinset)
            omega
          · have hc1 : ¬(decide ((x, (a, c)).1 = u ∧ (x, (a, c)).2.1 = "view")
                = true) := by simp [hv]
            have hc3 : (x == u) = true := by simp [hx]
            by_cases hp : a = "purchase"
            · have hc2 : decide ((x, a).1 = u ∧ (x, a).2 = "purchase")
                  = true := by simp [hx, hp]
              rw [if_neg hc1, if_pos hc2, if_pos hc3]
              omega
            · have hc2 : ¬(decide ((x, a).1 = u ∧ (x, a).2 = "purchase")
                  = true) := by simp [hp]
              rw [if_neg hc1, if_neg hc2, if_pos hc3]
              omega
        · have hc1 : ¬(decide ((x, (a, c)).1 = u ∧ (x, (a, c)).2.1 = "view")
              = true) := by simp [hx]
          have hc2 : ¬(decide ((x, a).1 = u ∧ (x, a).2 = "purchase")
              = true) := by simp [hx]
          have hc3 : ¬((x == u) = true) := by simp [hx]
          rw [if_neg hc1, if_neg hc2, if_neg hc3]
          omega

/-! Claim theorems. -/

/-- C1: on every well-formed batch, `engineer_user_activity_features`
succeeds with exactly one row per distinct `user_id` of the batch (no id
dropped, none duplicated), where `total_activities` counts all records
with that id and `purchase_count` counts its records labelled `purchase`;
an id with no qualifying records gets count 0, never a missing row. -/
theorem engineer_completeness_and_counts
    (uids : List Int) (atys : List String) (tss : List Int)
    (pids : List String)
    (h : atys.length = uids.length ∧ tss.length = uids.length ∧
      pids.length = uids.length) :
    ∃ rows, engineer_user_activity_features (mkBatch uids atys tss pids)
        = .ok rows ∧
      (rows.map FeatureRow.user_id).Nodup ∧
      (∀ u : Int, u ∈ rows.map FeatureRow.user_id ↔ u ∈ uids) ∧
      ∀ r ∈ rows,
        r.total_activities = uids.count r.user_id ∧
        r.purchase_count = (uids.zip atys).countP
          (fun rec => decide (rec.1 = r.user_id ∧ rec.2 = "purchase")) := by
  refine ⟨_, engineer_ok uids atys tss pids h, ?_, ?_, ?_⟩
  · rw [List.map_map]
    simpa [Function.comp_def] using nodup_uniqueUsers uids
  · intro u
    rw [List.map_map]
    simp only [Function.comp_def, List.mem_map]
    constructor
    · rintro ⟨uid, huid, rfl⟩
      exact (mem_uniqueUsers uids uid).mp huid
    · intro hu
      exact ⟨u, (mem_uniqueUsers uids u).mpr hu, rfl⟩
  · intro r hr
    rcases List.mem_map.mp hr with ⟨uid, huid, rfl⟩
    exact ⟨calculate_total_activities_eq uids uid,
      calculate_purchase_count_eq uids atys uid⟩

/-- Witness for C1 on the first spec example scenario. -/
theorem engineer_completeness_and_counts_witness :
    ∃ rows, engineer_user_activity_features (mkBatch [1, 1, 1, 2, 2]
        ["view", "view", "purchase", "view", "view"] [0, 1, 2, 3, 4]
        ["A", "B", "A", "C", "D"]) = .ok rows ∧
      (rows.map FeatureRow.user_id).Nodup ∧
      (∀ u : Int, u ∈ rows.map FeatureRow.user_id ↔ u ∈ [1, 1, 1, 2, 2]) ∧
      ∀ r ∈ rows,
        r.total_activities = List.count r.user_id
          ([1, 1, 1, 2, 2] : List Int) ∧
        r.purchase_count = (([1, 1, 1, 2, 2] : List Int).zip
            ["view", "view", "purchase", "view", "view"]).countP
          (fun rec => decide (rec.1 = r.user_id ∧ rec.2 = "purchase")) :=
  engineer_completeness_and_counts [1, 1, 1, 2, 2]
    ["view", "view", "purchase", "view", "view"] [0, 1, 2, 3, 4]
    ["A", "B", "A", "C", "D"] (by decide)

/-- C2: on every well-formed batch, each output row's
`unique_products_viewed` is the cardinality of the set of distinct
`product_id` values among that user's records whose activity type is
`view`; repeats count once and non-`view` records never count. -/
theorem engineer_unique_products_distinct_views
    (uids : List Int) (atys : List String) (tss : List Int)
    (pids : List String)
    (h : atys.length = uids.length ∧ tss.length = uids.length ∧
      pids.length = uids.length) :
    ∃ rows, engineer_user_activity_features (mkBatch uids atys tss pids)
        = .ok rows ∧
      ∀ r ∈ rows, r.unique_products_viewed
        = (((uids.zip (atys.zip pids)).filter
            (fun rec => decide (rec.1 = r.user_id ∧ rec.2.1 = "view"))).map
            (fun rec => rec.2.2)).toFinset.card := by
  refine ⟨_, engineer_ok uids atys tss pids h, ?_⟩
  intro r hr
  rcases List.mem_map.mp hr with ⟨uid, huid, rfl⟩
  simpa [distinctViewedProducts] using
    calculate_unique_products_viewed_eq uids atys pids uid

/-- Witness for C2: a repeated viewed product counts once and the
purchase of product A does not count toward the viewed set. -/
theorem engineer_unique_products_distinct_views_witness :
    ∃ rows, engineer_user_activity_features (mkBatch [3, 3, 3]
        ["view", "view", "purchase"] [0, 1, 2] ["X", "X", "Y"]) = .ok rows ∧
      ∀ r ∈ rows, r.unique_products_viewed
        = (((([3, 3, 3] : List Int).zip
            (["view", "view", "purchase"].zip ["X", "X", "Y"])).filter
            (fun rec => decide (rec.1 = r.user_id ∧ rec.2.1 = "view"))).map
            (fun rec => rec.2.2)).toFinset.card :=
  engineer_unique_products_distinct_views [3, 3, 3]
    ["view", "view", "purchase"] [0, 1, 2] ["X", "X", "Y"] (by decide)

/-- C4: on every well-formed batch the output rows come sorted in strictly
ascending `user_id` order. -/
theorem engineer_rows_sorted
    (uids : List Int) (atys : List String) (tss : List Int)
    (pids : List String)
    (h : atys.length = uids.length ∧ tss.length = uids.length ∧
      pids.length = uids.length) :
    ∃ rows, engineer_user_activity_features (mkBatch uids atys tss pids)
        = .ok rows ∧
      List.Sorted (· < ·) (rows.map FeatureRow.user_id) := by
  refine ⟨_, engineer_ok uids atys tss pids h, ?_⟩
  rw [List.map_map]
  simpa [Function.comp_def] using sorted_lt_uniqueUsers uids

/-- Witness for C4 on an unsorted input id sequence. -/
theorem engineer_rows_sorted_witness :
    ∃ rows, engineer_user_activity_features (mkBatch [9, 2, 9, 4]
        ["view", "click", "purchase", "view"] [0, 1, 2, 3]
        ["A", "B", "C", "D"]) = .ok rows ∧
      List.Sorted (· < ·) (rows.map FeatureRow.user_id) :=
  engineer_rows_sorted [9, 2, 9, 4] ["view", "click", "purchase", "view"]
    [0, 1, 2, 3] ["A", "B", "C", "D"] (by decide)

/-- C6: the batch whose four sequences are present and empty is accepted
and yields the empty output, not an error. -/
theorem engineer_empty_batch :
    engineer_user_activity_features (mkBatch [] [] [] []) = .ok [] := rfl

/-- C3: `engineer_user_activity_features` reports an input-shape error
exactly when a required sequence is missing or the four sequences have
different lengths; on such input no row list is produced (an `Except` is
either `error` or `ok`), and on every well-formed batch no failure occurs. -/
theorem engineer_error_iff_shape (raw : RawData) :
    (∃ msg, engineer_user_activity_features raw = .error msg)
      ↔ ¬wellFormedBatch raw := by
  rcases raw with ⟨ou, oa, ot, op⟩
  cases ou with
  | none => simp [engineer_user_activity_features, wellFormedBatch]
  | some uids =>
    cases oa with
    | none => simp [engineer_user_activity_features, wellFormedBatch]
    | some atys =>
      cases ot with
      | none => simp [engineer_user_activity_features, wellFormedBatch]
      | some tss =>
        cases op with
        | none => simp [engineer_user_activity_features, wellFormedBatch]
        | some pids =>
          by_cases hlen : atys.length = uids.length ∧
              tss.length = uids.length ∧ pids.length = uids.length
          · simp [engineer_user_activity_features, wellFormedBatch, hlen]
          · simp only [engineer_user_activity_features, wellFormedBatch,
              if_neg hlen]
            constructor
            · rintro - ⟨a, b, c, d, heq, h1, h2, h3⟩
              rcases heq with ⟨rfl, rfl, rfl, rfl⟩
              exact hlen ⟨h1, h2, h3⟩
            · intro _
              exact ⟨"All data arrays must have the same length", rfl⟩

/-- C5: relabelling only activity types that are neither `view` nor
`purchase` leaves every entity's `unique_products_viewed` and
`purchase_count` unchanged. -/
theorem engineer_relabel_independence
    (uids : List Int) (atys atys' : List String) (tss : List Int)
    (pids : List String)
    (h : atys.length = uids.length ∧ tss.length = uids.length ∧
      pids.length = uids.length)
    (hrel : List.Forall₂ RelabelOk atys atys') :
    ∃ rows rows',
      engineer_user_activity_features (mkBatch uids atys tss pids)
        = .ok rows ∧
      engineer_user_activity_features (mkBatch uids atys' tss pids)
        = .ok rows' ∧
      rows.map (fun r =>
          (r.user_id, r.unique_products_viewed, r.purchase_count))
        = rows'.map (fun r =>
            (r.user_id, r.unique_products_viewed, r.purchase_count)) := by
  have h' : atys'.length = uids.length ∧ tss.length = uids.length ∧
      pids.length = uids.length :=
    ⟨hrel.length_eq.symm.trans h.1, h.2.1, h.2.2⟩
  refine ⟨_, _, engineer_ok uids atys tss pids h,
    engineer_ok uids atys' tss pids h', ?_⟩
  rw [List.map_map, List.map_map]
  refine List.map_congr_left ?_
  intro uid _
  simp only [Function.comp_def]
  rw [Prod.mk.injEq, Prod.mk.injEq]
  refine ⟨rfl, ?_, ?_⟩
  · rw [calculate_unique_products_viewed_eq,
      calculate_unique_products_viewed_eq]
    simp only [distinctViewedProducts]
    rw [relabel_view_filter uids pids hrel uid]
  · rw [calculate_purchase_count_eq, calculate_purchase_count_eq]
    exact relabel_purchase_countP uids hrel uid

/-- Witness for C5: relabelling a `click` record to `scroll` changes
neither derived count. -/
theorem engineer_relabel_independence_witness :
    ∃ rows rows',
      engineer_user_activity_features (mkBatch [7, 7]
        ["view", "click"] [0, 1] ["A", "B"]) = .ok rows ∧
      engineer_user_activity_features (mkBatch [7, 7]
        ["view", "scroll"] [0, 1] ["A", "B"]) = .ok rows' ∧
      rows.map (fun r =>
          (r.user_id, r.unique_products_viewed, r.purchase_count))
        = rows'.map (fun r =>
            (r.user_id, r.unique_products_viewed, r.purchase_count)) :=
  engineer_relabel_independence [7, 7] ["view", "click"] ["view", "scroll"]
    [0, 1] ["A", "B"] (by decide)
    (List.Forall₂.cons (fun _ => rfl)
      (List.Forall₂.cons
        (fun hh => by rcases hh with hh | hh | hh | hh <;>
          exact absurd hh (by decide))
        List.Forall₂.nil))

/-- C9: every output row of `engineer_user_activity_features` on a
well-formed batch satisfies
`unique_products_viewed + purchase_count ≤ total_activities`, and all
three counts are non-negative. -/
theorem engineer_count_invariant
    (uids : List Int) (atys : List String) (tss : List Int)
    (pids : List String)
    (h : atys.length = uids.length ∧ tss.length = uids.length ∧
      pids.length = uids.length) :
    ∃ rows, engineer_user_activity_features (mkBatch uids atys tss pids)
        = .ok rows ∧
      ∀ r ∈ rows,
        r.unique_products_viewed + r.purchase_count
            ≤ r.total_activities ∧
        0 ≤ r.total_activities ∧ 0 ≤ r.unique_products_viewed ∧
        0 ≤ r.purchase_count := by
  refine ⟨_, engineer_ok uids atys tss pids h, ?_⟩
  intro r hr
  rcases List.mem_map.mp hr with ⟨uid, huid, rfl⟩
  refine ⟨?_, Nat.zero_le _, Nat.zero_le _, Nat.zero_le _⟩
  show calculate_unique_products_viewed uids atys pids uid
      + calculate_purchase_count uids atys uid
    ≤ calculate_total_activities uids uid
  rw [calculate_unique_products_viewed_eq, calculate_purchase_count_eq,
    calculate_total_activities_eq]
  exact viewed_card_add_purchase_le uids atys pids uid h.1 h.2.2

/-- Witness for C9 on a batch mixing views, purchases and other labels. -/
theorem engineer_count_invariant_witness :
    ∃ rows, engineer_user_activity_features (mkBatch [1, 1, 1, 2]
        ["view", "view", "purchase", "click"] [0, 1, 2, 3]
        ["A", "A", "B", "C"]) = .ok rows ∧
      ∀ r ∈ rows,
        r.unique_products_viewed + r.purchase_count
            ≤ r.total_activities ∧
        0 ≤ r.total_activities ∧ 0 ≤ r.unique_products_viewed ∧
        0 ≤ r.purchase_count :=
  engineer_count_invariant [1, 1, 1, 2]
    ["view", "view", "purchase", "click"] [0, 1, 2, 3]
    ["A", "A", "B", "C"] (by decide)

/-- C7 counterexample: the output column `user_id` is a `FeatureRow`
field name, yet it does not appear in the feature list of the metadata
returned by `define_feature_view` (it is listed under `entities` instead). -/
theorem define_feature_view_omits_user_id :
    "user_id" ∈ featureRowFieldNames ∧
    "user_id" ∉ define_feature_view.features.map FeatureField.name := by
  decide

/-- C7 (amended): every `FeatureRow` field name other than the entity key
`user_id` appears in the feature list of `define_feature_view`, and
`user_id` appears in its entities list. -/
theorem define_feature_view_schema_coverage :
    (∀ n ∈ featureRowFieldNames, n ≠ "user_id" →
      n ∈ define_feature_view.features.map FeatureField.name) ∧
    "user_id" ∈ define_feature_view.entities := by
  decide

/-- Witness for the amended C7 at the field name `total_activities`. -/
theorem define_feature_view_schema_coverage_witness :
    "total_activities" ∈ featureRowFieldNames ∧
    "total_activities" ≠ "user_id" ∧
    "total_activities" ∈ define_feature_view.features.map
      FeatureField.name :=
  ⟨by decide, by decide,
    define_feature_view_schema_coverage.1 "total_activities" (by decide)
      (by decide)⟩

/-- C8 counterexample: requesting a feature name outside the three known
ones yields output rows without that column, in both retrieval
simulations, so the claim fails for arbitrary requested lists. -/
theorem simulate_features_unknown_name_missing :
    dictGet? ((simulate_historical_features [⟨1, []⟩]
        (some ["favorite_color"])).getD 0 []) "favorite_color" = none ∧
    dictGet? ((simulate_online_features [⟨1, []⟩]
        (some ["favorite_color"])).getD 0 []) "favorite_color" = none := by
  decide

/-- C8 (amended): for every entity table and every requested list drawn
from the three known feature names, both retrieval simulations return
exactly one row per input entity, in input order (the i-th output row
carries the i-th input entity's `user_id`), with every requested feature
present as a filled column. -/
theorem simulate_retrieval_row_shape
    (entity_df : List EntityRow) (feats : List String)
    (hfeats : ∀ f ∈ feats, f ∈ defaultFeatureList) :
    (simulate_historical_features entity_df (some feats)).length
        = entity_df.length ∧
    (simulate_online_features entity_df (some feats)).length
        = entity_df.length ∧
    ∀ i, ∀ hi : i < entity_df.length,
      ∃ hrow orow,
        (simulate_historical_features entity_df (some feats)).get? i
            = some hrow ∧
        (simulate_online_features entity_df (some feats)).get? i
            = some orow ∧
        dictGet? hrow "user_id" = some (entity_df.get ⟨i, hi⟩).user_id ∧
        dictGet? orow "user_id" = some (entity_df.get ⟨i, hi⟩).user_id ∧
        ∀ f ∈ feats, (dictGet? hrow f).isSome ∧ (dictGet? orow f).isSome := by
  have huid : "user_id" ∉ feats := fun hmem => by
    have := hfeats _ hmem
    simp [defaultFeatureList] at this
  refine ⟨by simp [simulate_historical_features],
    by simp [simulate_online_features], ?_⟩
  intro i hi
  set row := entity_df.get ⟨i, hi⟩ with hrow_def
  have hget : entity_df.get? i = some row := List.get?_eq_get hi
  refine ⟨feats.foldl (historical_set_feature row.user_id)
      (("user_id", row.user_id) :: row.extra),
    feats.foldl (online_set_feature row.user_id) [("user_id", row.user_id)],
    ?_, ?_, ?_, ?_, ?_⟩
  · simp only [simulate_historical_features, List.get?_map, hget,
      Option.map_some', Option.getD_some]
  · simp only [simulate_online_features, List.get?_map, hget,
      Option.map_some', Option.getD_some]
  · rw [historical_foldl_not_mem _ _ _ _ huid]
    simp [dictGet?]
  · rw [online_foldl_not_mem _ _ _ _ huid]
    simp [dictGet?]
  · intro f hf
    constructor
    · rw [historical_foldl_get _ _ _ _ (hfeats f hf), if_pos hf]
      rfl
    · rw [online_foldl_get _ _ _ _ (hfeats f hf), if_pos hf]
      rfl

/-- Witness for the amended C8 on a two-entity table requesting
`purchase_count`. -/
theorem simulate_retrieval_row_shape_witness :
    (simulate_historical_features [⟨2, []⟩, ⟨5, [("event_timestamp", 11)]⟩]
        (some ["purchase_count"])).length
        = ([⟨2, []⟩, ⟨5, [("event_timestamp", 11)]⟩] : List EntityRow).length ∧
    (simulate_online_features [⟨2, []⟩, ⟨5, [("event_timestamp", 11)]⟩]
        (some ["purchase_count"])).length
        = ([⟨2, []⟩, ⟨5, [("event_timestamp", 11)]⟩] : List EntityRow).length ∧
    ∀ i, ∀ hi : i < ([⟨2, []⟩, ⟨5, [("event_timestamp", 11)]⟩] :
        List EntityRow).length,
      ∃ hrow orow,
        (simulate_historical_features [⟨2, []⟩, ⟨5, [("event_timestamp", 11)]⟩]
            (some ["purchase_count"])).get? i = some hrow ∧
        (simulate_online_features [⟨2, []⟩, ⟨5, [("event_timestamp", 11)]⟩]
            (some ["purchase_count"])).get? i = some orow ∧
        dictGet? hrow "user_id"
            = some (([⟨2, []⟩, ⟨5, [("event_timestamp", 11)]⟩] :
                List EntityRow).get ⟨i, hi⟩).user_id ∧
        dictGet? orow "user_id"
            = some (([⟨2, []⟩, ⟨5, [("event_timestamp", 11)]⟩] :
                List EntityRow).get ⟨i, hi⟩).user_id ∧
        ∀ f ∈ ["purchase_count"],
          (dictGet? hrow f).isSome ∧ (dictGet? orow f).isSome :=
  simulate_retrieval_row_shape [⟨2, []⟩, ⟨5, [("event_timestamp", 11)]⟩]
    ["purchase_count"] (by decide)

/-- C10: on any entity and any requested list drawn from the three known
feature names, the historical and online simulations assign the same
value to each requested feature, namely the fixed linear formula of the
entity id (10, 5 and 2 times `user_id`), so the two retrieval paths agree
on common inputs. -/
theorem simulate_retrieval_equivalence
    (uid : Int) (extra : List (String × Int)) (feats : List String)
    (hfeats : ∀ f ∈ feats, f ∈ defaultFeatureList)
    (f : String) (hf : f ∈ feats) :
    dictGet? ((simulate_historical_features [⟨uid, extra⟩]
        (some feats)).getD 0 []) f
        = some (claimed_feature_formula uid f) ∧
    dictGet? ((simulate_online_features [⟨uid, extra⟩]
        (some feats)).getD 0 []) f
        = some (claimed_feature_formula uid f) := by
  constructor
  · show dictGet? (feats.foldl (historical_set_feature uid)
        (("user_id", uid) :: extra)) f = _
    rw [historical_foldl_get _ _ _ _ (hfeats f hf), if_pos hf]
  · show dictGet? (feats.foldl (online_set_feature uid)
        [("user_id", uid)]) f = _
    rw [online_foldl_get _ _ _ _ (hfeats f hf), if_pos hf]

/-- Witness for C10 at entity 4 requesting all three known features,
evaluated at `unique_products_viewed`. -/
theorem simulate_retrieval_equivalence_witness :
    dictGet? ((simulate_historical_features [⟨4, [("event_timestamp", 99)]⟩]
        (some ["total_activities", "unique_products_viewed",
          "purchase_count"])).getD 0 []) "unique_products_viewed"
        = some (claimed_feature_formula 4 "unique_products_viewed") ∧
    dictGet? ((simulate_online_features [⟨4, [("event_timestamp", 99)]⟩]
        (some ["total_activities", "unique_products_viewed",
          "purchase_count"])).getD 0 []) "unique_products_viewed"
        = some (claimed_feature_formula 4 "unique_products_viewed") :=
  simulate_retrieval_equivalence 4 [("event_timestamp", 99)]
    ["total_activities", "unique_products_viewed", "purchase_count"]
    (by decide) "unique_products_viewed" (by decide)

end FeatureStore
